import Mathlib

/-!
Verification development for the datajoint-python core: a shallow embedding of
the heading/attribute model (src/datajoint/heading.py), the connection and
transaction manager (src/datajoint/connection.py), and the autopopulate
scheduler (src/datajoint/autopopulate.py), together with theorems settling the
specification claims about them.
-/

namespace DataJoint

/-- Structured stand-in for the DataJointError exceptions raised by heading.py. -/
inductive DataJointError
  | attributeNotFound (name : String)
  | illegalComment (comment : String)
deriving DecidableEq

/-- Concrete numpy dtypes appearing in the numeric_types table of
Heading.init_from_database, plus the generic object representation. -/
inductive Dtype
  | object
  | float32
  | float64
  | int8
  | uint8
  | int16
  | uint16
  | int32
  | uint32
  | int64
  | uint64
deriving DecidableEq

/-- Whitespace characters of the Python regex class used in
re.match of the pattern backslash-s followed by "unsigned". -/
def isPySpace (c : Char) : Bool :=
  c == ' ' || c == '\t' || c == '\n' || c == '\r' || c == '\x0b' || c == '\x0c'

/-- Anchored match of a literal at the start of a string, on the underlying
character lists. -/
def strStartsWith (t p : String) : Bool := p.toList.isPrefixOf t.toList

/-- Alternatives of the anchored regex deciding numeric classification in
init_from_database: an optional tiny/small/medium/big prefix before "int",
or decimal, double, float. -/
def numericTypeHeads : List String :=
  ["tinyint", "smallint", "mediumint", "bigint", "int", "decimal", "double", "float"]

/-- Anchored match of the numeric-classification regex on the raw type string. -/
def matchesNumeric (t : String) : Bool :=
  numericTypeHeads.any (fun p => strStartsWith t p)

/-- Anchored match of the integer-family regex (optional tiny/small/medium/big
prefix before "int"). -/
def isIntegerType (t : String) : Bool :=
  ["tinyint", "smallint", "mediumint", "bigint", "int"].any (fun p => strStartsWith t p)

/-- Anchored match of the float-family regex (double or float). -/
def isFloatType (t : String) : Bool :=
  strStartsWith t "double" || strStartsWith t "float"

/-- Anchored, case-insensitive match of the unsigned-detection regex of
init_from_database: because re.match anchors at the start of the string, it
requires a leading whitespace character followed by the word "unsigned". -/
def startsWithSpaceUnsigned (t : String) : Bool :=
  match t.toList with
  | [] => false
  | c :: rest => isPySpace c && ((rest.take 8).map Char.toLower == "unsigned".toList)

/-- Effect of the parenthesis-removing re.sub in init_from_database: the dot-star
is greedy, so the single replaced match runs from the first opening parenthesis
to the last closing one (when the former precedes the latter); otherwise the
string is unchanged. -/
def removeParenthesized (t : String) : String :=
  let cs := t.toList
  match cs.findIdx? (fun c => c == '('), cs.reverse.findIdx? (fun c => c == ')') with
  | some i, some jr =>
    let j := cs.length - 1 - jr
    if i < j then String.mk (cs.take i ++ cs.drop (j + 1)) else t
  | _, _ => t

/-- Effect of the re.sub removing a trailing " unsigned" (case-sensitive,
anchored at the end). -/
def stripTrailingUnsigned (t : String) : String :=
  if " unsigned".toList.isSuffixOf t.toList
  then String.mk (t.toList.take (t.toList.length - 9))
  else t

/-- The numeric_types mapping of Heading.init_from_database, keyed by
(stripped type name, is_unsigned), verbatim from the source, including its
entry sending ("double", false) to float32. -/
def numeric_types : List ((String × Bool) × Dtype) :=
  [(("float", false), Dtype.float32),
   (("float", true), Dtype.float32),
   (("double", false), Dtype.float32),
   (("double", true), Dtype.float64),
   (("tinyint", false), Dtype.int8),
   (("tinyint", true), Dtype.uint8),
   (("smallint", false), Dtype.int16),
   (("smallint", true), Dtype.uint16),
   (("mediumint", false), Dtype.int32),
   (("mediumint", true), Dtype.uint32),
   (("int", false), Dtype.int32),
   (("int", true), Dtype.uint32),
   (("bigint", false), Dtype.int64),
   (("bigint", true), Dtype.uint64)]

/-- Failure of the assertion that the stripped type is a key of numeric_types. -/
inductive DtypeError
  | assertFailed (t : String)
deriving DecidableEq

/-- The dtype resolution of Heading.init_from_database (the block that fills
out attr dtype): the dtype is object unless the column is numeric and is
either a non-nullable integer or a float, in which case the stripped type name
together with the unsigned flag is looked up in numeric_types. -/
def resolveDtype (type : String) (nullable : Bool) : Except DtypeError Dtype :=
  if matchesNumeric type then
    let is_integer := isIntegerType type
    let is_float := isFloatType type
    if (is_integer && !nullable) || is_float then
      let is_unsigned := startsWithSpaceUnsigned type
      let t := stripTrailingUnsigned (removeParenthesized type)
      match (numeric_types.find? (fun p => p.1 == (t, is_unsigned))).map (fun p => p.2) with
      | some d => Except.ok d
      | none => Except.error (DtypeError.assertFailed t)
    else Except.ok Dtype.object
  else Except.ok Dtype.object

/-- Properties of a table column, mirroring the Attribute namedtuple and
default_attribute_properties of heading.py.  Python keeps None placeholders
for name, numeric and string among the defaults; every attribute actually
placed in a heading has its name overwritten with a string, so name is a
String here while numeric and string keep the optional form. -/
structure Attribute where
  name : String
  type : String
  in_key : Bool
  nullable : Bool
  default : Option String
  comment : String
  autoincrement : Bool
  numeric : Option Bool
  string : Option Bool
  is_blob : Bool
  sql_expression : Option String
  dtype : Dtype
deriving DecidableEq

/-- Default attribute properties, used for computed attributes. -/
def default_attribute : Attribute where
  name := ""
  type := "expression"
  in_key := false
  nullable := false
  default := none
  comment := "calculated attribute"
  autoincrement := false
  numeric := none
  string := none
  is_blob := false
  sql_expression := none
  dtype := Dtype.object

/-- SQL literals that can be used as default values without quoting. -/
def sql_literals : List String := ["CURRENT_TIMESTAMP"]

/-- The character check of Attribute.sql: the comment contains a backslash or
a double quote. -/
def illegalCommentChars (s : String) : Bool :=
  s.toList.any (fun c => c == '\\' || c == '"')

/-- Single quote character, spelled via its code point. -/
def singleQuote : Char := Char.ofNat 39

/-- Rendering of one attribute as its CREATE TABLE clause (Attribute.sql):
computes the default clause from nullability and the default value, raises on
an illegal comment, and otherwise formats the back-ticked name, the type, the
default clause and the double-quoted comment. -/
def Attribute.sql (a : Attribute) : Except DataJointError String :=
  let defaultClause :=
    if a.nullable then "DEFAULT NULL"
    else
      match a.default with
      | none => "NOT NULL"
      | some d =>
        if d.toList.isEmpty then "NOT NULL"
        else
          let head := d.toList.headD (Char.ofNat 0)
          let quote := !(sql_literals.contains (String.mk (d.toList.map Char.toUpper)))
            && !(head == '"' || head == singleQuote)
          "NOT NULL" ++ " DEFAULT " ++ (if quote then "\"" ++ d ++ "\"" else d)
  if illegalCommentChars a.comment then
    Except.error (DataJointError.illegalComment a.comment)
  else
    Except.ok ("`" ++ a.name ++ "` " ++ a.type ++ " " ++ defaultClause ++ " COMMENT \"" ++ a.comment ++ "\"")

/-- OrderedDict insertion keyed by attribute name: an existing key keeps its
position but takes the new value; a fresh key is appended at the end. -/
def odInsert (l : List Attribute) (a : Attribute) : List Attribute :=
  if l.any (fun b => b.name == a.name) then
    l.map (fun b => if b.name == a.name then a else b)
  else l ++ [a]

/-- Building an OrderedDict of attributes keyed by name from a list of
attributes, as the Heading constructor does. -/
def odFromList (l : List Attribute) : List Attribute := l.foldl odInsert []

/-- A relation heading: an ordered mapping from attribute names to attributes. -/
structure Heading where
  attrs : List Attribute
deriving DecidableEq

/-- The Heading constructor applied to a list of attribute dictionaries. -/
def Heading.ofList (l : List Attribute) : Heading := ⟨odFromList l⟩

/-- Property names: the keys of the attribute mapping, in order. -/
def Heading.names (h : Heading) : List String := h.attrs.map (fun a => a.name)

/-- Heading.project: derive a new heading by selecting, renaming, or computing
attributes.  Fails on the first name of attribute_list that is not an
attribute; otherwise keeps the selected attributes in source order (adjusting
in_key when force_primary_key is given) followed by the renamed or computed
attributes in caller order. -/
def Heading.project (h : Heading) (attribute_list : List String)
    (named_attributes : List (String × String)) (force_primary_key : Option (List String)) :
    Except DataJointError Heading :=
  match attribute_list.find? (fun a => !(h.names.contains a)) with
  | some a => Except.error (DataJointError.attributeNotFound a)
  | none =>
    Except.ok (Heading.ofList (
      ((h.attrs.filter (fun v => attribute_list.contains v.name)).map (fun v =>
        match force_primary_key with
        | none => v
        | some fpk => { v with in_key := fpk.contains v.name })) ++
      (named_attributes.map (fun p =>
        if h.names.contains p.2 then
          let src := (h.attrs.find? (fun v => v.name == p.2)).getD default_attribute
          { src with
              name := p.1,
              sql_expression := some ("`" ++ p.2 ++ "`"),
              in_key := match force_primary_key with
                        | none => src.in_key
                        | some fpk => fpk.contains p.2 }
        else
          { default_attribute with name := p.1, sql_expression := some p.2 }))))

/-- Heading.join: the left heading's attributes followed by those attributes of
the right heading whose names are not present on the left, in right order. -/
def Heading.join (h other : Heading) : Heading :=
  Heading.ofList (h.attrs ++
    ((other.names.filter (fun n => !(h.names.contains n))).map
      (fun n => (other.attrs.find? (fun v => v.name == n)).getD default_attribute)))

/-- Connection-level state: the transaction flag, whether the underlying server
connection is currently alive (the pymysql client is an external collaborator,
so the answer of its ping liveness probe is a state field), and the
database.reconnect configuration switch. -/
structure ConnState where
  inTransactionFlag : Bool
  live : Bool
  reconnect : Bool
deriving DecidableEq

/-- Outcome of executing one SQL statement on the server. -/
inductive QueryOutcome
  | success
  | serverGoneAway
  | failure (msg : String)
deriving DecidableEq

/-- Exceptions that Connection.query can raise. -/
inductive QueryError
  | operationalGoneAway
  | queryFailure (msg : String)
deriving DecidableEq

/-- Liveness probe Connection.is_connected, delegating to the client ping. -/
def is_connected (s : ConnState) : Bool := s.live

/-- Connection.query: executes the statement; on an OperationalError of the
server-gone-away kind with database.reconnect enabled it warns and reconnects
instead of raising; any other failure propagates. -/
def connQuery (outcome : QueryOutcome) (s : ConnState) : ConnState × Option QueryError :=
  match outcome with
  | QueryOutcome.success => (s, none)
  | QueryOutcome.serverGoneAway =>
    if s.reconnect then ({ s with live := true }, none)
    else ({ s with live := false }, some QueryError.operationalGoneAway)
  | QueryOutcome.failure m => (s, some (QueryError.queryFailure m))

/-- Connection.cancel_transaction: issue ROLLBACK, then clear the flag.  When
the query raises, the exception propagates before the flag assignment runs. -/
def cancel_transaction (outcome : QueryOutcome) (s : ConnState) : ConnState × Option QueryError :=
  match connQuery outcome s with
  | (s1, some e) => (s1, some e)
  | (s1, none) => ({ s1 with inTransactionFlag := false }, none)

/-- Connection.commit_transaction: issue COMMIT, then clear the flag.  When
the query raises, the exception propagates before the flag assignment runs. -/
def commit_transaction (outcome : QueryOutcome) (s : ConnState) : ConnState × Option QueryError :=
  match connQuery outcome s with
  | (s1, some e) => (s1, some e)
  | (s1, none) => ({ s1 with inTransactionFlag := false }, none)

/-- Property Connection.in_transaction: re-evaluates the stored flag as the
conjunction of the flag and the liveness probe, stores that value back, and
returns it. -/
def in_transaction (s : ConnState) : Bool × ConnState :=
  let v := s.inTransactionFlag && is_connected s
  (v, { s with inTransactionFlag := v })

/-- Primary keys handed to the computation hook are abstracted as naturals. -/
abbrev Key := Nat

/-- Behaviour of the ROLLBACK issued on the failure path of the populate loop:
it may succeed, raise an OperationalError (which the loop swallows), or raise
some other exception (which propagates). -/
inductive RollbackOutcome
  | succeeded
  | operationalFailure
  | otherFailure (msg : String)
deriving DecidableEq

/-- Per-key oracle describing what the collaborators do for one key: whether
the job store grants the reservation, whether the key is already present in the
target when re-checked inside the transaction, whether the computation hook
raises (and with what message), and how the ROLLBACK issued on the failure
path behaves. -/
structure KeyBehavior where
  reserveGranted : Bool
  inTarget : Bool
  makeError : Option String
  rollback : RollbackOutcome
deriving DecidableEq

/-- Observable calls populate makes on the connection, the job store and the
computation hook, in order. -/
inductive Event
  | reserveAttempt (k : Key) (granted : Bool)
  | startTransaction (k : Key)
  | cancelTransaction (k : Key)
  | commitTransaction (k : Key)
  | jobComplete (k : Key)
  | jobError (k : Key) (msg : String)
  | makeTuples (k : Key)
deriving DecidableEq

/-- Exceptions that populate can raise. -/
inductive PopError
  | transactionInProgress
  | invalidOrder
  | invalidKeySource
  | makeFailed (k : Key) (msg : String)
  | rollbackFailed (k : Key) (msg : String)
deriving DecidableEq

/-- Result of the loop body for one key: either move on to the next key (with
the optionally recorded (key, error) pair) or abort the whole populate call. -/
inductive StepResult
  | next (events : List Event) (recorded : Option (Key × String))
  | raised (events : List Event) (e : PopError)
deriving DecidableEq

/-- Loop body of AutoPopulate.populate for one key: optional reservation,
transaction start, membership re-check, hook invocation, and the success and
failure paths, with the OperationalError of a failed rollback swallowed and
the job store notified when reservation is in effect. -/
def processKey (suppress reserve : Bool) (k : Key) (b : KeyBehavior) : StepResult :=
  if reserve && !b.reserveGranted then
    StepResult.next [Event.reserveAttempt k false] none
  else
    let evs0 := (if reserve then [Event.reserveAttempt k true] else []) ++ [Event.startTransaction k]
    if b.inTarget then
      StepResult.next
        (evs0 ++ [Event.cancelTransaction k] ++ (if reserve then [Event.jobComplete k] else [])) none
    else
      let evs1 := evs0 ++ [Event.makeTuples k]
      match b.makeError with
      | none =>
        StepResult.next
          (evs1 ++ [Event.commitTransaction k] ++ (if reserve then [Event.jobComplete k] else [])) none
      | some msg =>
        let evs2 := evs1 ++ [Event.cancelTransaction k]
        match b.rollback with
        | RollbackOutcome.otherFailure m => StepResult.raised evs2 (PopError.rollbackFailed k m)
        | _ =>
          let evs3 := evs2 ++ (if reserve then [Event.jobError k msg] else [])
          if suppress then StepResult.next evs3 (some (k, msg))
          else StepResult.raised evs3 (PopError.makeFailed k msg)

/-- The populate loop over the materialized keys, accumulating the event trace
and the suppressed (key, error) list, or aborting with the raised exception. -/
def runKeys (suppress reserve : Bool) :
    List (Key × KeyBehavior) → List Event × Except PopError (List (Key × String))
  | [] => ([], Except.ok [])
  | (k, b) :: rest =>
    match processKey suppress reserve k b with
    | StepResult.raised evs e => (evs, Except.error e)
    | StepResult.next evs recorded =>
      let r := runKeys suppress reserve rest
      (evs ++ r.1, r.2.map (fun l => recorded.toList ++ l))

/-- For one key, the (key, error) pair that a completed populate run records:
present exactly when the key passed reservation, was not already in the target,
and its computation failed. -/
def keyFailure (reserve : Bool) (kb : Key × KeyBehavior) : Option (Key × String) :=
  if reserve && !kb.2.reserveGranted then none
  else if kb.2.inTarget then none
  else kb.2.makeError.map (fun m => (kb.1, m))

/-- Events of a key whose computation hook fails and whose rollback does not
itself propagate: reservation (when in effect), transaction start, hook
invocation, rollback, then the job-store error notification (when in effect). -/
def failEvents (reserve : Bool) (k : Key) (msg : String) : List Event :=
  (if reserve then [Event.reserveAttempt k true] else []) ++
    [Event.startTransaction k, Event.makeTuples k, Event.cancelTransaction k] ++
    (if reserve then [Event.jobError k msg] else [])

/-- The accepted values of the order argument. -/
def validOrders : List String := ["original", "reverse", "random"]

/-- Reordering of the fetched keys according to order; the in-place random
shuffle is abstracted as a caller-supplied permutation function. -/
def iterOrder (shuffle : List (Key × KeyBehavior) → List (Key × KeyBehavior))
    (order : String) (keys : List (Key × KeyBehavior)) : List (Key × KeyBehavior) :=
  if order == "reverse" then keys.reverse
  else if order == "random" then shuffle keys
  else keys

/-- AutoPopulate.populate: the open-transaction guard, order validation and
key-source well-formedness check, then the per-key loop; returns the error
list, which is initialised to the empty list only when suppressing and is
None otherwise.  The key list stands for the fetched primary keys of the
restricted key source minus the target. -/
def populate (shuffle : List (Key × KeyBehavior) → List (Key × KeyBehavior))
    (conn : ConnState) (keySourceValid suppress reserve : Bool) (order : String)
    (keys : List (Key × KeyBehavior)) :
    List Event × Except PopError (Option (List (Key × String))) :=
  if (in_transaction conn).1 then ([], Except.error PopError.transactionInProgress)
  else if !(validOrders.contains order) then ([], Except.error PopError.invalidOrder)
  else if !keySourceValid then ([], Except.error PopError.invalidKeySource)
  else
    ((runKeys suppress reserve (iterOrder shuffle order keys)).1,
     (runKeys suppress reserve (iterOrder shuffle order keys)).2.map
       (fun l => if suppress then some l else none))

/-- Sample attribute named x as it appears on the left operand of a join. -/
def attrXA : Attribute := { default_attribute with name := "x", type := "A" }

/-- Sample attribute named x as it appears on the right operand of a join. -/
def attrXB : Attribute := { default_attribute with name := "x", type := "B" }

/-- Sample attribute named y. -/
def attrY : Attribute := { default_attribute with name := "y" }

/-- Sample attribute named a. -/
def attrA : Attribute := { default_attribute with name := "a" }

/-- Sample attribute named b. -/
def attrB : Attribute := { default_attribute with name := "b" }

/-! Helper lemmas about the OrderedDict construction and name lookups. -/

theorem odInsert_fresh (l : List Attribute) (a : Attribute)
    (h : ∀ b ∈ l, b.name ≠ a.name) : odInsert l a = l ++ [a] := by
  unfold odInsert
  rw [if_neg]
  simp only [List.any_eq_true, beq_iff_eq, not_exists, not_and]
  exact fun b hb => h b hb

theorem foldl_odInsert_eq : ∀ (l acc : List Attribute),
    ((acc ++ l).map Attribute.name).Nodup → List.foldl odInsert acc l = acc ++ l
  | [], acc, _ => by simp
  | a :: t, acc, h => by
    have hmem : a.name ∉ acc.map Attribute.name := by
      intro hc
      rw [List.map_append, List.nodup_append] at h
      exact h.2.2 hc (by simp)
    have hfresh : ∀ b ∈ acc, b.name ≠ a.name := fun b hb hbe =>
      hmem (hbe ▸ List.mem_map_of_mem Attribute.name hb)
    have h2 : (((acc ++ [a]) ++ t).map Attribute.name).Nodup := by
      rw [List.append_assoc]; exact h
    rw [List.foldl_cons, odInsert_fresh acc a hfresh, foldl_odInsert_eq t (acc ++ [a]) h2,
      List.append_assoc]
    rfl

theorem odFromList_eq (l : List Attribute) (h : (l.map Attribute.name).Nodup) :
    odFromList l = l := by
  have := foldl_odInsert_eq l [] (by simpa using h)
  simpa [odFromList] using this

theorem map_name_filter (p : String → Bool) :
    ∀ l : List Attribute,
      (l.map Attribute.name).filter p = (l.filter (fun v => p v.name)).map Attribute.name
  | [] => rfl
  | a :: t => by
    cases hp : p a.name <;>
      simp [List.filter_cons, hp, map_name_filter p t]

theorem find?_name_self : ∀ (l : List Attribute), ((l.map Attribute.name).Nodup) →
    ∀ v ∈ l, l.find? (fun w => w.name == v.name) = some v
  | [], _, v, hv => by cases hv
  | a :: t, h, v, hv => by
    rcases List.mem_cons.mp hv with rfl | hvt
    · rw [List.find?_cons_of_pos _ (by simp)]
    · have hnd := h
      rw [List.map_cons, List.nodup_cons] at hnd
      have hne : a.name ≠ v.name := by
        intro he
        exact hnd.1 (he ▸ List.mem_map_of_mem Attribute.name hvt)
      rw [List.find?_cons_of_neg _ (by simp [hne])]
      exact find?_name_self t hnd.2 v hvt

theorem map_id_of_mem {α : Type} (f : α → α) : ∀ (l : List α), (∀ x ∈ l, f x = x) → l.map f = l
  | [], _ => rfl
  | a :: t, h => by
    rw [List.map_cons, h a (by simp), map_id_of_mem f t (fun x hx => h x (by simp [hx]))]

theorem find?_append_of_some {α : Type} (p : α → Bool) : ∀ (l1 l2 : List α) (a : α),
    l1.find? p = some a → (l1 ++ l2).find? p = some a
  | [], _, a, h => by simp [List.find?] at h
  | b :: t, l2, a, h => by
    cases hp : p b with
    | true =>
      rw [List.find?_cons_of_pos _ hp] at h
      rw [List.cons_append, List.find?_cons_of_pos _ hp]
      exact h
    | false =>
      rw [List.find?_cons_of_neg _ (by simp [hp])] at h
      rw [List.cons_append, List.find?_cons_of_neg _ (by simp [hp])]
      exact find?_append_of_some p t l2 a h

/-- Claim C1: the claimed dtype resolution (unsigned marker respected for
non-nullable integers, floating point mapped at matching width) does not hold
on the code.  Evaluating the embedded resolution at the failing inputs: a
non-nullable column of raw type "int(10) unsigned" resolves to the signed
int32 (the anchored whitespace-unsigned regex can never match a raw type
string, so the unsigned entries of numeric_types are unreachable), and a
double column resolves to float32 in both nullabilities (the table sends
("double", false) to float32). -/
theorem dtype_resolution_at_failing_inputs :
    resolveDtype "int(10) unsigned" false = Except.ok Dtype.int32
    ∧ resolveDtype "double" false = Except.ok Dtype.float32
    ∧ resolveDtype "double" true = Except.ok Dtype.float32 := ⟨rfl, rfl, rfl⟩

/-- Claim C3 (counterexample): cancelTransaction does not clear the
in-transaction flag unconditionally.  When the ROLLBACK statement itself
raises, the exception propagates before the flag assignment: the call raises
and the flag is still set afterwards. -/
theorem transaction_close_counterexample :
    (cancel_transaction (QueryOutcome.failure "lost") ⟨true, true, true⟩).2
        = some (QueryError.queryFailure "lost")
    ∧ (cancel_transaction (QueryOutcome.failure "lost") ⟨true, true, true⟩).1.inTransactionFlag
        = true := ⟨rfl, rfl⟩

/-- Claim C3 (amended): commitTransaction and cancelTransaction clear the
in-transaction flag exactly when the COMMIT or ROLLBACK statement completes
without raising (including when a gone-away failure is absorbed by the
reconnect path); when the statement raises, the exception propagates and the
flag is left unchanged. -/
theorem transaction_close_flag (o : QueryOutcome) (s : ConnState) :
    (cancel_transaction o s).1.inTransactionFlag
        = (if (connQuery o s).2 = none then false else s.inTransactionFlag)
    ∧ (commit_transaction o s).1.inTransactionFlag
        = (if (connQuery o s).2 = none then false else s.inTransactionFlag)
    ∧ (cancel_transaction o s).2 = (connQuery o s).2
    ∧ (commit_transaction o s).2 = (connQuery o s).2 := by
  cases o with
  | success => simp [cancel_transaction, commit_transaction, connQuery]
  | serverGoneAway =>
    by_cases hr : s.reconnect = true <;>
      simp [cancel_transaction, commit_transaction, connQuery, hr]
  | failure m => simp [cancel_transaction, commit_transaction, connQuery]

/-- Claim C9: reading the in_transaction property yields the conjunction of
the stored flag and the current liveness probe (and stores that refreshed
value back); in particular a connection whose liveness probe fails is never
reported as in transaction. -/
theorem in_transaction_flag_and_live (s : ConnState) :
    (in_transaction s).1 = (s.inTransactionFlag && is_connected s)
    ∧ (in_transaction s).2.inTransactionFlag = (s.inTransactionFlag && is_connected s)
    ∧ (in_transaction { s with live := false }).1 = false := by
  refine ⟨rfl, rfl, ?_⟩
  simp [in_transaction, is_connected]

/-- Claim C8: rendering the schema-definition clause of an attribute fails
exactly when its comment contains a double quote or a backslash; for a
non-nullable attribute with no default and a legal comment, the rendered
clause is the back-ticked name, the type, NOT NULL, and the double-quoted
comment. -/
theorem attribute_sql_spec (a b : Attribute) (hnul : a.nullable = false)
    (hdef : a.default = none) :
    ((b.sql.toOption.isNone = illegalCommentChars b.comment)
      ∧ (illegalCommentChars b.comment = true
          ↔ ('\\' ∈ b.comment.toList ∨ '"' ∈ b.comment.toList)))
    ∧ (a.sql = if illegalCommentChars a.comment
               then Except.error (DataJointError.illegalComment a.comment)
               else Except.ok ("`" ++ a.name ++ "` " ++ a.type ++ " " ++ "NOT NULL"
                      ++ " COMMENT \"" ++ a.comment ++ "\"")) := by
  refine ⟨⟨?_, ?_⟩, ?_⟩
  · cases hc : illegalCommentChars b.comment <;>
      simp [Attribute.sql, hc, Except.toOption]
  · simp only [illegalCommentChars, List.any_eq_true, Bool.or_eq_true, beq_iff_eq]
    constructor
    · rintro ⟨c, hc, rfl | rfl⟩
      · exact Or.inl hc
      · exact Or.inr hc
    · rintro (hc | hc)
      · exact ⟨_, hc, Or.inl rfl⟩
      · exact ⟨_, hc, Or.inr rfl⟩
  · unfold Attribute.sql
    rw [hnul, hdef]
    rfl

/-- Claim C8 (witness): the concrete render from the specification. -/
theorem attribute_sql_spec_witness :
    Attribute.sql { default_attribute with name := "COL", type := "TYPE", comment := "ok" }
      = Except.ok "`COL` TYPE NOT NULL COMMENT \"ok\"" :=
  (attribute_sql_spec
    { default_attribute with name := "COL", type := "TYPE", comment := "ok" }
    { default_attribute with name := "COL", type := "TYPE", comment := "ok" }
    rfl rfl).2

/-- Claim C10: in project, a renamed attribute's key membership under a
forced primary key is decided by the membership of the original (source) name
in the forced set; the new name plays no role. -/
theorem project_rename_forced_key (h : Heading) (new old : String) (fpk : List String)
    (hold : h.names.contains old = true) :
    (h.project [] [(new, old)] (some fpk)).map
        (fun hd => hd.attrs.map (fun a => (a.name, a.in_key)))
      = Except.ok [(new, fpk.contains old)] := by
  have hold2 : old ∈ h.names := by simpa using hold
  unfold Heading.project
  simp [hold, hold2, Heading.ofList, odFromList, odInsert, Except.map]

/-- Claim C10 (witness): renaming a to b with forced key list containing the
new name b but not the source name a yields a non-key attribute. -/
theorem project_rename_forced_key_witness :
    (Heading.project ⟨[{ attrA with in_key := true }]⟩ [] [("b", "a")] (some ["b"])).map
        (fun hd => hd.attrs.map (fun a => (a.name, a.in_key)))
      = Except.ok [("b", false)] :=
  project_rename_forced_key ⟨[{ attrA with in_key := true }]⟩ "b" "a" ["b"] (by decide)

/-- Claim C6: projecting onto a kept list (no computed attributes, no forced
primary key) fails with the attribute-not-found error exactly when some name
of the kept list is absent from the heading, naming the first such name;
otherwise the resulting names are the kept names in the heading's source
order (followed by the computed attributes, here none). -/
theorem project_keep_spec (h : Heading) (keep : List String)
    (hwf : (h.attrs.map Attribute.name).Nodup) :
    (h.project keep [] none).map Heading.names
      = if keep.all (fun a => h.names.contains a)
        then Except.ok (h.names.filter (fun n => keep.contains n))
        else Except.error (DataJointError.attributeNotFound
              ((keep.find? (fun a => !(h.names.contains a))).getD "")) := by
  unfold Heading.project
  cases hf : keep.find? (fun a => !(h.names.contains a)) with
  | some a =>
    have ha := List.find?_some hf
    have hmem := List.mem_of_find?_eq_some hf
    rw [if_neg]
    · simp [hf, Except.map]
    · simp only [List.all_eq_true, not_forall]
      refine ⟨a, hmem, ?_⟩
      simp only [Bool.not_eq_true', Bool.not_eq_true] at ha ⊢
      exact ha
  | none =>
    have hkept : ((h.attrs.filter (fun v => keep.contains v.name)).map Attribute.name).Nodup := by
      rw [← map_name_filter]
      exact hwf.filter _
    rw [if_pos]
    · simp only [hf]
      simp only [Except.map, List.map_nil, List.append_nil]
      rw [Heading.ofList]
      have hid : (h.attrs.filter (fun v => keep.contains v.name)).map
          (fun v => match (none : Option (List String)) with
                    | none => v
                    | some fpk => { v with in_key := fpk.contains v.name })
          = h.attrs.filter (fun v => keep.contains v.name) := List.map_id _
      rw [hid, odFromList_eq _ hkept]
      rw [show ∀ hd : Heading, hd.names = hd.attrs.map Attribute.name from fun _ => rfl]
      rw [← map_name_filter]
      rfl
    · have hall := List.find?_eq_none.mp hf
      simp only [List.all_eq_true]
      intro a hmem
      have := hall a hmem
      simp only [Bool.not_eq_true', Bool.not_eq_true] at this
      simpa using this

/-- Claim C6 (witness): keeping b from a heading with attributes a, b yields
the names list with exactly b; the missing-name hypothesis side is exercised
by the nodup hypothesis being discharged concretely. -/
theorem project_keep_spec_witness :
    (Heading.project ⟨[attrA, attrB]⟩ ["b"] [] none).map Heading.names
      = Except.ok ["b"] := by
  have h := project_keep_spec ⟨[attrA, attrB]⟩ ["b"] (by decide)
  simpa [attrA, attrB, Heading.names] using h

/-- Claim C7: joining headings A and B yields A's attributes unchanged and in
order, followed by those attributes of B whose names are absent from A in B's
order; a name x present in both headings occurs exactly once in the result
and its descriptor is looked up in A, not in B. -/
theorem join_spec (A B : Heading) (x : String)
    (hA : (A.attrs.map Attribute.name).Nodup) (hB : (B.attrs.map Attribute.name).Nodup)
    (hxA : x ∈ A.names) (hxB : x ∈ B.names) :
    (A.join B).attrs = A.attrs ++ B.attrs.filter (fun v => !(A.names.contains v.name))
    ∧ (A.join B).names = A.names ++ B.names.filter (fun n => !(A.names.contains n))
    ∧ (A.join B).names.count x = 1
    ∧ (A.join B).attrs.find? (fun v => v.name == x) = A.attrs.find? (fun v => v.name == x) := by
  have hnames : ∀ hd : Heading, hd.names = hd.attrs.map Attribute.name := fun _ => rfl
  have htail :
      ((B.names.filter (fun n => !(A.names.contains n))).map
        (fun n => (B.attrs.find? (fun v => v.name == n)).getD default_attribute))
      = B.attrs.filter (fun v => !(A.names.contains v.name)) := by
    rw [hnames B, map_name_filter, List.map_map]
    apply map_id_of_mem
    intro v hv
    have hvB : v ∈ B.attrs := List.mem_of_mem_filter hv
    simp only [Function.comp]
    rw [find?_name_self B.attrs hB v hvB]
    rfl
  have hfilter_nd :
      ((B.attrs.filter (fun v => !(A.names.contains v.name))).map Attribute.name).Nodup :=
    hB.sublist ((List.filter_sublist _).map Attribute.name)
  have hdisj : (A.attrs.map Attribute.name).Disjoint
      ((B.attrs.filter (fun v => !(A.names.contains v.name))).map Attribute.name) := by
    intro n hnA hnB
    rcases List.mem_map.mp hnB with ⟨v, hv, rfl⟩
    have hvq := (List.mem_filter.mp hv).2
    simp only [Bool.not_eq_true', Bool.not_eq_true] at hvq
    have : v.name ∈ A.names := by
      rw [hnames A]; exact hnA
    simp [this] at hvq
  have hnd : ((A.attrs ++ B.attrs.filter (fun v => !(A.names.contains v.name))).map
      Attribute.name).Nodup := by
    rw [List.map_append, List.nodup_append]
    exact ⟨hA, hfilter_nd, hdisj⟩
  have hattrs : (A.join B).attrs
      = A.attrs ++ B.attrs.filter (fun v => !(A.names.contains v.name)) := by
    unfold Heading.join Heading.ofList
    rw [htail, odFromList_eq _ hnd]
  have hns : (A.join B).names = A.names ++ B.names.filter (fun n => !(A.names.contains n)) := by
    rw [hnames (A.join B), hattrs, List.map_append, ← hnames A, hnames B, map_name_filter]
  refine ⟨hattrs, hns, ?_, ?_⟩
  · rw [hns, List.count_append]
    have h1 : A.names.count x = 1 := List.count_eq_one_of_mem (by rw [hnames A]; exact hA) hxA
    have h2 : (B.names.filter (fun n => !(A.names.contains n))).count x = 0 := by
      rw [List.count_eq_zero]
      intro hc
      have := (List.mem_filter.mp hc).2
      simp [hxA] at this
    rw [h1, h2]
  · rcases List.mem_map.mp (by rw [hnames A] at hxA; exact hxA) with ⟨v, hvA, rfl⟩
    have hfind : A.attrs.find? (fun w => w.name == v.name) = some v :=
      find?_name_self A.attrs hA v hvA
    rw [hattrs, find?_append_of_some _ _ _ _ hfind, hfind]

/-- Claim C7 (witness): concrete join of headings sharing the name x. -/
theorem join_spec_witness :
    (Heading.join ⟨[attrXA]⟩ ⟨[attrXB, attrY]⟩).attrs
        = (⟨[attrXA]⟩ : Heading).attrs
            ++ (⟨[attrXB, attrY]⟩ : Heading).attrs.filter
              (fun v => !((⟨[attrXA]⟩ : Heading).names.contains v.name))
    ∧ (Heading.join ⟨[attrXA]⟩ ⟨[attrXB, attrY]⟩).names
        = (⟨[attrXA]⟩ : Heading).names
            ++ (⟨[attrXB, attrY]⟩ : Heading).names.filter
              (fun n => !((⟨[attrXA]⟩ : Heading).names.contains n))
    ∧ (Heading.join ⟨[attrXA]⟩ ⟨[attrXB, attrY]⟩).names.count "x" = 1
    ∧ (Heading.join ⟨[attrXA]⟩ ⟨[attrXB, attrY]⟩).attrs.find? (fun v => v.name == "x")
        = (⟨[attrXA]⟩ : Heading).attrs.find? (fun v => v.name == "x") :=
  join_spec ⟨[attrXA]⟩ ⟨[attrXB, attrY]⟩ "x" (by decide) (by decide) (by decide) (by decide)

/-! Lemmas about the populate loop. -/

theorem processKey_next_recorded (suppress reserve : Bool) (k : Key) (b : KeyBehavior)
    (evs : List Event) (rec : Option (Key × String))
    (h : processKey suppress reserve k b = StepResult.next evs rec) :
    rec = keyFailure reserve (k, b) := by
  rcases b with ⟨rg, it, mk, rb⟩
  cases rg <;> cases it <;> cases reserve <;> cases suppress <;> cases mk <;> cases rb <;>
    simp_all [processKey, keyFailure]

theorem runKeys_ok (suppress reserve : Bool) (ks : List (Key × KeyBehavior)) :
    ∀ (evs : List Event) (l : List (Key × String)),
      runKeys suppress reserve ks = (evs, Except.ok l) →
      l = ks.filterMap (keyFailure reserve) := by
  induction ks with
  | nil =>
    intro evs l h
    rw [runKeys] at h
    have h2 := congrArg Prod.snd h
    simp only [Except.ok.injEq] at h2
    rw [List.filterMap_nil]
    exact h2.symm
  | cons kb rest ih =>
    obtain ⟨k, b⟩ := kb
    intro evs l h
    rw [runKeys] at h
    cases hp : processKey suppress reserve k b with
    | raised evs2 e =>
      rw [hp] at h
      have h2 := congrArg Prod.snd h
      simp at h2
    | next evs2 rec =>
      rw [hp] at h
      cases hr : runKeys suppress reserve rest with
      | mk evs3 r3 =>
        rw [hr] at h
        cases r3 with
        | error e =>
          have h2 := congrArg Prod.snd h
          simp [Except.map] at h2
        | ok l3 =>
          have h2 := congrArg Prod.snd h
          simp only [Except.map, Except.ok.injEq] at h2
          subst h2
          rw [processKey_next_recorded suppress reserve k b evs2 rec hp,
            ih evs3 l3 hr, List.filterMap_cons]
          cases hkf : keyFailure reserve (k, b) <;> simp

theorem runKeys_append (suppress reserve : Bool) (pre post : List (Key × KeyBehavior)) :
    ∀ (preEvs : List Event) (preErrs : List (Key × String)),
      runKeys suppress reserve pre = (preEvs, Except.ok preErrs) →
      runKeys suppress reserve (pre ++ post)
        = (preEvs ++ (runKeys suppress reserve post).1,
           (runKeys suppress reserve post).2.map (fun l => preErrs ++ l)) := by
  induction pre with
  | nil =>
    intro preEvs preErrs h
    rw [runKeys] at h
    have h1 := congrArg Prod.fst h
    have h2 := congrArg Prod.snd h
    simp only [Except.ok.injEq] at h1 h2
    subst h1
    subst h2
    rw [List.nil_append]
    cases hr : runKeys suppress reserve post with
    | mk evs2 r2 => cases r2 <;> simp [Except.map]
  | cons kb pre ih =>
    obtain ⟨k, b⟩ := kb
    intro preEvs preErrs h
    rw [List.cons_append]
    rw [runKeys] at h ⊢
    cases hp : processKey suppress reserve k b with
    | raised evs2 e =>
      rw [hp] at h
      have h2 := congrArg Prod.snd h
      simp at h2
    | next evs2 rec =>
      rw [hp] at h
      cases hr : runKeys suppress reserve pre with
      | mk evs3 r3 =>
        rw [hr] at h
        cases r3 with
        | error e =>
          have h2 := congrArg Prod.snd h
          simp [Except.map] at h2
        | ok l3 =>
          have h1 := congrArg Prod.fst h
          have h2 := congrArg Prod.snd h
          simp only [Except.map, Except.ok.injEq] at h1 h2
          subst h1
          subst h2
          rw [ih evs3 l3 hr]
          cases hpost : runKeys suppress reserve post with
          | mk evs4 r4 =>
            cases r4 <;> simp [Except.map, List.append_assoc]

theorem processKey_failure (suppress reserve : Bool) (k : Key) (b : KeyBehavior) (msg : String)
    (hres : reserve = true → b.reserveGranted = true)
    (hin : b.inTarget = false) (hmk : b.makeError = some msg)
    (hrb : b.rollback = RollbackOutcome.succeeded
            ∨ b.rollback = RollbackOutcome.operationalFailure) :
    processKey suppress reserve k b
      = (if suppress then StepResult.next (failEvents reserve k msg) (some (k, msg))
         else StepResult.raised (failEvents reserve k msg) (PopError.makeFailed k msg)) := by
  have hcond : (reserve && !b.reserveGranted) = false := by
    cases reserve with
    | false => rfl
    | true => rw [hres rfl]; rfl
  unfold processKey
  rw [hin, hmk, hcond]
  rcases hrb with h | h <;> rw [h] <;> cases reserve <;> cases suppress <;>
    simp [failEvents]

theorem populate_normal (shuffle : List (Key × KeyBehavior) → List (Key × KeyBehavior))
    (conn : ConnState) (suppress reserve : Bool) (keys : List (Key × KeyBehavior))
    (hc : (in_transaction conn).1 = false) :
    populate shuffle conn true suppress reserve "original" keys
      = ((runKeys suppress reserve keys).1,
         (runKeys suppress reserve keys).2.map (fun l => if suppress then some l else none)) := by
  unfold populate
  rw [hc]
  rfl

/-- Claim C5: calling populate while the connection reports an open
transaction fails immediately with the transaction-in-progress error and
performs no key processing at all: the trace of reservation, transaction and
computation-hook events is empty. -/
theorem populate_in_transaction_guard
    (shuffle : List (Key × KeyBehavior) → List (Key × KeyBehavior)) (conn : ConnState)
    (keySourceValid suppress reserve : Bool) (order : String)
    (keys : List (Key × KeyBehavior)) (hc : (in_transaction conn).1 = true) :
    populate shuffle conn keySourceValid suppress reserve order keys
      = ([], Except.error PopError.transactionInProgress) := by
  unfold populate
  rw [hc]
  rfl

/-- Claim C5 (witness): concrete call with the flag set on a live connection. -/
theorem populate_in_transaction_guard_witness :
    populate id ⟨true, true, true⟩ true false false "original"
        [(1, ⟨true, false, none, RollbackOutcome.succeeded⟩)]
      = ([], Except.error PopError.transactionInProgress) :=
  populate_in_transaction_guard id ⟨true, true, true⟩ true false false "original"
    [(1, ⟨true, false, none, RollbackOutcome.succeeded⟩)] rfl

/-- Claim C2 (counterexample): a populate call with suppression off that
raises nothing returns None, not a list: the returned value at a concrete
input is None, which is not the empty list of (key, error) pairs the claim
promises. -/
theorem populate_no_suppress_counterexample :
    (populate id ⟨false, true, true⟩ true false false "original" []).2 = Except.ok none
    ∧ (none : Option (List (Key × String))) ≠ some [] :=
  ⟨rfl, by simp⟩

/-- Claim C2 (amended): when populate does not raise, it returns None if
suppression was off, and otherwise returns exactly the accumulated list of
(key, error) pairs of the keys whose computation failed during the run, in
iteration order (so the list is empty when no processed key failed). -/
theorem populate_return_value
    (shuffle : List (Key × KeyBehavior) → List (Key × KeyBehavior)) (conn : ConnState)
    (keySourceValid suppress reserve : Bool) (order : String)
    (keys : List (Key × KeyBehavior)) (evs : List Event)
    (r : Option (List (Key × String)))
    (h : populate shuffle conn keySourceValid suppress reserve order keys
          = (evs, Except.ok r)) :
    r = if suppress
        then some ((iterOrder shuffle order keys).filterMap (keyFailure reserve))
        else none := by
  unfold populate at h
  by_cases hg1 : (in_transaction conn).1 = true
  · rw [if_pos hg1] at h
    have h2 := congrArg Prod.snd h
    simp at h2
  · rw [if_neg hg1] at h
    by_cases hg2 : (!(validOrders.contains order)) = true
    · rw [if_pos hg2] at h
      have h2 := congrArg Prod.snd h
      simp at h2
    · rw [if_neg hg2] at h
      by_cases hg3 : (!keySourceValid) = true
      · rw [if_pos hg3] at h
        have h2 := congrArg Prod.snd h
        simp at h2
      · rw [if_neg hg3] at h
        cases hr : runKeys suppress reserve (iterOrder shuffle order keys) with
        | mk evs2 r2 =>
          rw [hr] at h
          cases r2 with
          | error e =>
            have h2 := congrArg Prod.snd h
            simp [Except.map] at h2
          | ok l =>
            have h2 := congrArg Prod.snd h
            simp only [Except.map, Except.ok.injEq] at h2
            rw [← h2, runKeys_ok suppress reserve _ evs2 l hr]

/-- Claim C2 (witness): a suppressed run with one failing key returns the
singleton error list predicted by the amended claim. -/
theorem populate_return_value_witness :
    (some [((1 : Key), "boom")] : Option (List (Key × String)))
      = if true
        then some ((iterOrder id "original"
              [(1, ⟨true, false, some "boom", RollbackOutcome.succeeded⟩)]).filterMap
            (keyFailure false))
        else none :=
  populate_return_value id ⟨false, true, true⟩ true true false "original"
    [(1, ⟨true, false, some "boom", RollbackOutcome.succeeded⟩)]
    [Event.startTransaction 1, Event.makeTuples 1, Event.cancelTransaction 1]
    (some [(1, "boom")]) rfl

/-- Claim C4: inside populate, a key whose computation hook fails (after any
prefix of keys processed without raising) is handled by rolling back its
transaction first (a rollback OperationalError is swallowed), then marking
the job errored when reservation is in effect (visible in the trace order of
failEvents); with suppression off the failure propagates, populate stops and
later keys contribute no events; with suppression on the (key, error) pair is
appended to the error list and the remaining keys are processed. -/
theorem populate_key_failure
    (shuffle : List (Key × KeyBehavior) → List (Key × KeyBehavior)) (conn : ConnState)
    (reserve : Bool) (pre rest : List (Key × KeyBehavior)) (k : Key) (b : KeyBehavior)
    (preEvs preEvs2 : List Event) (preErrs : List (Key × String)) (msg : String)
    (hc : (in_transaction conn).1 = false)
    (hres : reserve = true → b.reserveGranted = true)
    (hin : b.inTarget = false)
    (hmk : b.makeError = some msg)
    (hrb : b.rollback = RollbackOutcome.succeeded
            ∨ b.rollback = RollbackOutcome.operationalFailure)
    (h1 : runKeys false reserve pre = (preEvs, Except.ok []))
    (h2 : runKeys true reserve pre = (preEvs2, Except.ok preErrs)) :
    populate shuffle conn true false reserve "original" (pre ++ (k, b) :: rest)
        = (preEvs ++ failEvents reserve k msg, Except.error (PopError.makeFailed k msg))
    ∧ populate shuffle conn true true reserve "original" (pre ++ (k, b) :: rest)
        = (preEvs2 ++ (failEvents reserve k msg ++ (runKeys true reserve rest).1),
           (runKeys true reserve rest).2.map (fun l => some (preErrs ++ ((k, msg) :: l)))) := by
  constructor
  · have hhead : runKeys false reserve ((k, b) :: rest)
        = (failEvents reserve k msg, Except.error (PopError.makeFailed k msg)) := by
      rw [runKeys, processKey_failure false reserve k b msg hres hin hmk hrb]
      rfl
    have happ := runKeys_append false reserve pre ((k, b) :: rest) preEvs [] h1
    rw [hhead] at happ
    simp only [Except.map, List.nil_append] at happ
    rw [populate_normal shuffle conn false reserve (pre ++ (k, b) :: rest) hc, happ]
    rfl
  · have hhead : runKeys true reserve ((k, b) :: rest)
        = (failEvents reserve k msg ++ (runKeys true reserve rest).1,
           (runKeys true reserve rest).2.map (fun l => (k, msg) :: l)) := by
      rw [runKeys, processKey_failure true reserve k b msg hres hin hmk hrb]
      rfl
    have happ := runKeys_append true reserve pre ((k, b) :: rest) preEvs2 preErrs h2
    rw [hhead] at happ
    rw [populate_normal shuffle conn true reserve (pre ++ (k, b) :: rest) hc, happ]
    cases hrest : runKeys true reserve rest with
    | mk evs4 r4 =>
      cases r4 <;> simp [Except.map, List.append_assoc]

/-- Claim C4 (witness): single failing reserved key with a clean rollback,
after an empty prefix, for both suppression settings. -/
theorem populate_key_failure_witness :
    populate id ⟨false, true, true⟩ true false true "original"
        ([] ++ (1, ⟨true, false, some "boom", RollbackOutcome.succeeded⟩) :: [])
        = ([] ++ failEvents true 1 "boom", Except.error (PopError.makeFailed 1 "boom"))
    ∧ populate id ⟨false, true, true⟩ true true true "original"
        ([] ++ (1, ⟨true, false, some "boom", RollbackOutcome.succeeded⟩) :: [])
        = ([] ++ (failEvents true 1 "boom" ++ (runKeys true true []).1),
           (runKeys true true []).2.map (fun l => some ([] ++ (((1 : Key), "boom") :: l)))) :=
  populate_key_failure id ⟨false, true, true⟩ true [] []
    1 ⟨true, false, some "boom", RollbackOutcome.succeeded⟩ [] [] [] "boom"
    rfl (fun _ => rfl) rfl rfl (Or.inl rfl) rfl rfl

end DataJoint
